import Mathlib

/-!
Verification development for the `ghadoc` workflow-documentation generator
(package `generate`, file `generate.go`).

The program lists a directory, keeps the entries whose extension is `.yml`
or `.yaml` and which are not subdirectories, extracts from each such file a
description (the leading run of lines whose trimmed form starts with `##`)
and a trigger list (from the top-level `on` field of the YAML document),
and renders one markdown table row per successfully parsed file.

Modelling conventions:
* file content is modelled as its list of lines (the Go code reads it with
  a line scanner) together with the result of `yaml.Unmarshal` into
  `map[string]interface ...`, which either fails (malformed YAML, or a
  top-level value that is not a mapping) or yields the top-level mapping as
  an association list in source key order (an empty document yields the nil
  map, modelled as the empty list);
* a Go map value inside the document is likewise an association list in
  source key order; iterating a Go map visits the entries in an
  unspecified order, so every function that models a `for ... range` loop
  over a map takes an extra argument `choose`, the iteration order picked
  by the runtime, constrained by `GoIter` to produce a permutation;
* `filepath.Join`, `filepath.Dir`, `filepath.Rel` and `filepath.ToSlash`
  are platform operations external to the package; they are abstracted as
  a `PathOps` record, with `rel` returning `none` on failure exactly as
  `filepath.Rel` can return an error;
* Go `strings.TrimSpace` trims Unicode white space; `String.trim` trims
  ASCII white space, which coincides on the inputs of interest.
-/

set_option autoImplicit false

namespace Ghadoc

/-- A YAML value as produced by `yaml.Unmarshal` into `interface ...`:
a plain string, a sequence, a mapping (association list in source key
order, keys unique), or any other scalar (bool, number, null, ...). -/
inductive Yaml where
  | str (s : String)
  | seq (items : List Yaml)
  | map (entries : List (String × Yaml))
  | other
  deriving Repr

/-- The part of a Go `interface ...` value that the type switch
`case string` extracts: `some s` when the value is a string. -/
def yamlString : Yaml → Option String
  | .str s => some s
  | _ => none

/-- Result of reading and unmarshalling one file: `lines` is the content
split into lines (as `bufio.Scanner` yields them), `unmarshal` the result
of `yaml.Unmarshal` into a string-keyed map (`Except.error ()` when the
content is not a valid top-level key/value document; an empty document
unmarshals to the nil map, i.e. `Except.ok []`). -/
structure FileModel where
  lines : List String
  unmarshal : Except Unit (List (String × Yaml))
  deriving Repr

/-- One entry of the directory listing, fused with the outcome of reading
the file it names: `file = Except.error ()` when the file cannot be read. -/
structure DirEntry where
  name : String
  isDir : Bool
  file : Except Unit FileModel
  deriving Repr

/-- `WorkflowInfo` of `generate.go`: filename, comment-derived description,
and the list of trigger names extracted from the `on` field. -/
structure WorkflowInfo where
  Filename : String
  Description : String
  Triggers : List String
  deriving Repr, DecidableEq

/-- White space as Go `unicode.IsSpace` recognises it, restricted to the
ASCII range (the only range these files use). -/
def isSpaceGo (c : Char) : Bool :=
  c = ' ' || c = '\t' || c = '\n' || c = '\r'

/-- Go `strings.TrimSpace`: remove white space from both ends. -/
def trimSpaceGo (s : String) : String :=
  String.mk (((s.data.dropWhile isSpaceGo).reverse.dropWhile isSpaceGo).reverse)

/-- Go `strings.HasPrefix`: byte-prefix test, which on valid UTF-8 content
is the character-prefix test. -/
def hasPrefixGo (s pre : String) : Bool :=
  pre.data.isPrefixOf s.data

/-- Go `strings.TrimPrefix`: drop `pre` from the front of `s` when present,
otherwise return `s` unchanged. -/
def trimPrefixGo (s pre : String) : String :=
  if hasPrefixGo s pre then String.mk (s.data.drop pre.data.length) else s

/-- One iteration of the description scanner loop body on an already
trimmed line known to start with the marker: remove the two-character
marker and trim the surrounding white space
(`strings.TrimSpace (strings.TrimPrefix trimmedLine "##")`). -/
def descLine (trimmedLine : String) : String :=
  trimSpaceGo (trimPrefixGo trimmedLine "##")

/-- The scanner loop of `parseWorkflowFile` (lines 81 to 92): walk the lines
from the top, stop at the first line whose trimmed form does not start with
`##`, and collect the stripped remainder of each line before that. -/
def collectDescLines : List String → List String
  | [] => []
  | l :: ls =>
    let trimmedLine := trimSpaceGo l
    if hasPrefixGo trimmedLine "##" then
      descLine trimmedLine :: collectDescLines ls
    else
      []

/-- Lines 94 to 99 of `generate.go`: join the collected description lines
with the `<br>` marker when there are any, otherwise the empty string. -/
def extractDescription (lines : List String) : String :=
  let descriptionLines := collectDescLines lines
  if descriptionLines.length > 0 then
    String.intercalate "<br>" descriptionLines
  else
    ""

/-- An iteration order for Go maps is legitimate exactly when it visits
every entry once, i.e. produces a permutation of the entries. -/
def GoIter (choose : List (String × Yaml) → List (String × Yaml)) : Prop :=
  ∀ l, List.Perm (choose l) l

/-- The three-shape type switch of `parseWorkflowFile` (lines 111 to 127):
a mapping contributes its keys in the order the runtime iterates the Go map
(`choose`), a sequence contributes its string elements in order, a plain
string contributes itself, and any other shape contributes nothing. -/
def onTriggers (choose : List (String × Yaml) → List (String × Yaml)) :
    Yaml → List String
  | .map entries => (choose entries).map Prod.fst
  | .seq items => items.filterMap yamlString
  | .str s => [s]
  | .other => []

/-- `parseWorkflowFile` of `generate.go` (lines 61 to 131): fail when the
file cannot be read or the content does not unmarshal; otherwise build the
record from the leading comment block and the `on` field (an absent `on`
field yields no triggers). The caller fills in `Filename`. -/
def parseWorkflowFile (choose : List (String × Yaml) → List (String × Yaml)) :
    Except Unit FileModel → Except Unit WorkflowInfo
  | .error () => .error ()
  | .ok fm =>
    match fm.unmarshal with
    | .error () => .error ()
    | .ok yamlData =>
      .ok
        { Filename := ""
          Description := extractDescription fm.lines
          Triggers :=
            match yamlData.lookup "on" with
            | some onField => onTriggers choose onField
            | none => [] }

/-- The scan of Go `filepath.Ext`, on the reversed character list: walk
backwards from the end of the name, stop empty at a path separator, and
return the suffix from the final dot on when one is found first.
`acc` holds the characters already passed, in original order. -/
def filepathExtAux (acc : List Char) : List Char → List Char
  | [] => []
  | c :: cs =>
    if c = '/' then []
    else if c = '.' then '.' :: acc
    else filepathExtAux (c :: acc) cs

/-- Go `filepath.Ext`: the suffix of the last path element starting at its
final dot, empty when the last element has no dot. -/
def filepathExt (name : String) : String :=
  String.mk (filepathExtAux [] name.data.reverse)

/-- The filter of the `Generate` loop (line 35): keep entries that are not
subdirectories and whose extension is exactly `.yml` or `.yaml`. -/
def isCandidate (e : DirEntry) : Bool :=
  !e.isDir && (filepathExt e.name == ".yml" || filepathExt e.name == ".yaml")

/-- The accumulation loop of `Generate` (lines 33 to 45): for each listing
entry in order, skip it unless it is a candidate file; parse candidates,
skip the ones whose parse fails, and append the record of each success
with its `Filename` set to the entry name. -/
def collectWorkflows (choose : List (String × Yaml) → List (String × Yaml)) :
    List DirEntry → List WorkflowInfo
  | [] => []
  | e :: es =>
    let ext := filepathExt e.name
    if !e.isDir && (ext == ".yml" || ext == ".yaml") then
      match parseWorkflowFile choose e.file with
      | .error () => collectWorkflows choose es
      | .ok workflow =>
        { workflow with Filename := e.name } :: collectWorkflows choose es
    else
      collectWorkflows choose es

/-- The platform path operations used by the renderer, abstracted:
`join` is `filepath.Join`, `dir` is `filepath.Dir`, `rel` is
`filepath.Rel` (with `none` for its error case), `toSlash` is
`filepath.ToSlash`. -/
structure PathOps where
  join : String → String → String
  dir : String → String
  rel : String → String → Option String
  toSlash : String → String

/-- The loop body of `generateMarkdownTable` (lines 143 to 168): build the
relative link for one workflow (falling back to the bare filename when
`filepath.Rel` fails), join the triggers with a comma, and emit one table
row ending in a line break. -/
def rowOf (P : PathOps) (workflowsDir outputPath : String)
    (workflow : WorkflowInfo) : String :=
  let workflowFullPath := P.join workflowsDir workflow.Filename
  let outputDir := P.dir outputPath
  let relativePath :=
    match P.rel outputDir workflowFullPath with
    | some p => p
    | none => workflow.Filename
  let relativePath := P.toSlash relativePath
  let fileLink := "[" ++ workflow.Filename ++ "](" ++ relativePath ++ ")"
  let triggers := String.intercalate ", " workflow.Triggers
  "| " ++ fileLink ++ " | " ++ workflow.Description ++ " | " ++ triggers ++ " |\n"

/-- The fixed prologue written before any row: title line, blank line,
header row and separator row (lines 138 to 140). -/
def tablePrologue : String :=
  "# GitHub Workflows Summary\n\n| Filename | Description | Triggers |\n| --- | --- | --- |\n"

/-- `generateMarkdownTable` of `generate.go` (lines 134 to 171): the
prologue followed by one row per workflow record, in input order. -/
def generateMarkdownTable (P : PathOps) (workflows : List WorkflowInfo)
    (workflowsDir outputPath : String) : String :=
  tablePrologue ++ String.join (workflows.map (rowOf P workflowsDir outputPath))

/-- The document that `Generate` (lines 22 to 58) writes to the output
file, as a function of the directory listing: the table rendered from the
collected records. Listing the directory and writing the file are I/O
outside the model; a listing failure aborts before any of this runs. -/
def Generate (choose : List (String × Yaml) → List (String × Yaml))
    (P : PathOps) (entries : List DirEntry)
    (workflowsDir output : String) : String :=
  generateMarkdownTable P (collectWorkflows choose entries) workflowsDir output

/-! ### Helper lemmas -/

/-- The scanner loop collects exactly the longest prefix of lines whose
trimmed form starts with the marker, each stripped by `descLine`. -/
theorem collectDescLines_eq_takeWhile (lines : List String) :
    collectDescLines lines =
      (lines.takeWhile (fun l => hasPrefixGo (trimSpaceGo l) "##")).map
        (fun l => descLine (trimSpaceGo l)) := by
  induction lines with
  | nil => rfl
  | cons l ls ih =>
    cases h : hasPrefixGo (trimSpaceGo l) "##" with
    | true => simp [collectDescLines, List.takeWhile, h, ih]
    | false => simp [collectDescLines, List.takeWhile, h]

/-- Unfolding of one step of the `Generate` accumulation loop through the
`isCandidate` abbreviation. -/
theorem collectWorkflows_cons
    (choose : List (String × Yaml) → List (String × Yaml))
    (e : DirEntry) (es : List DirEntry) :
    collectWorkflows choose (e :: es) =
      if isCandidate e then
        match parseWorkflowFile choose e.file with
        | .error () => collectWorkflows choose es
        | .ok workflow =>
          { workflow with Filename := e.name } :: collectWorkflows choose es
      else
        collectWorkflows choose es := rfl

/-- The accumulation loop distributes over concatenation of listings. -/
theorem collectWorkflows_append
    (choose : List (String × Yaml) → List (String × Yaml))
    (a b : List DirEntry) :
    collectWorkflows choose (a ++ b) =
      collectWorkflows choose a ++ collectWorkflows choose b := by
  induction a with
  | nil => rfl
  | cons e es ih =>
    rw [List.cons_append, collectWorkflows_cons, collectWorkflows_cons]
    cases h : isCandidate e with
    | true =>
      simp only [h, if_true]
      cases parseWorkflowFile choose e.file with
      | error u => cases u; simpa using ih
      | ok workflow => simpa using ih
    | false => simp only [h, Bool.false_eq_true, if_false, ih]

/-! ### Claims -/

/-- Claim C1, counterexample: the code iterates the Go map underlying a
mapping-shaped `on` value with `for key := range v`, whose order is
unspecified; reversal is a legitimate iteration order, and under it the
mapping with keys `push`, `pull_request` (in that source order) yields the
triggers in the opposite order, so the trigger list is not always in
source key order. -/
theorem onTriggers_map_order_counterexample :
    GoIter (fun l => l.reverse) ∧
    onTriggers (fun l => l.reverse)
        (Yaml.map [("push", Yaml.other), ("pull_request", Yaml.other)]) ≠
      ["push", "pull_request"] :=
  ⟨fun l => List.reverse_perm l, by decide⟩

/-- Claim C1, amended: for a mapping-shaped `on` value, the trigger list is
the key names of the mapping in the (unspecified) order the runtime
iterates the Go map, i.e. a permutation of the source key order, still
without recursing into sub-fields. -/
theorem onTriggers_map_keys
    (choose : List (String × Yaml) → List (String × Yaml))
    (h : GoIter choose) (entries : List (String × Yaml)) :
    List.Perm (onTriggers choose (Yaml.map entries)) (entries.map Prod.fst) :=
  List.Perm.map Prod.fst (h entries)

/-- Witness for claim C1 at the identity iteration order and a one-entry
mapping. -/
theorem onTriggers_map_keys_witness :
    List.Perm (onTriggers (fun l => l) (Yaml.map [("push", Yaml.other)]))
      ["push"] :=
  onTriggers_map_keys (fun l => l) (fun l => List.Perm.refl l)
    [("push", Yaml.other)]

/-- Claim C2: `parseWorkflowFile` fails exactly when the file cannot be
read or its content does not unmarshal as a structured key/value document;
in particular a readable, well-formed file with no top-level `on` entry
succeeds with an empty trigger list. -/
theorem parseWorkflowFile_error_iff
    (choose : List (String × Yaml) → List (String × Yaml))
    (f : Except Unit FileModel) :
    (parseWorkflowFile choose f = Except.error () ↔
      f = Except.error () ∨
        ∃ lines, f = Except.ok ⟨lines, Except.error ()⟩) ∧
    (∀ lines yamlData, f = Except.ok ⟨lines, Except.ok yamlData⟩ →
      yamlData.lookup "on" = none →
      parseWorkflowFile choose f =
        Except.ok ⟨"", extractDescription lines, []⟩) := by
  constructor
  · cases f with
    | error u =>
      cases u
      simp [parseWorkflowFile]
    | ok fm =>
      obtain ⟨lines, unm⟩ := fm
      cases unm with
      | error u =>
        cases u
        simp [parseWorkflowFile]
      | ok yamlData =>
        simp only [parseWorkflowFile]
        constructor
        · intro h
          cases yamlData.lookup "on" <;> simp_all
        · intro h
          rcases h with h | ⟨l, h⟩ <;> simp_all
  · intro lines yamlData hf hlook
    subst hf
    simp [parseWorkflowFile, hlook]

/-- Witness for claim C2: a file whose document has a `name` entry but no
`on` entry parses to a record with the comment description and no
triggers. -/
theorem parseWorkflowFile_error_iff_witness :
    parseWorkflowFile (fun l => l)
        (Except.ok ⟨["## hi"], Except.ok [("name", Yaml.str "x")]⟩) =
      Except.ok ⟨"", "hi", []⟩ := by
  have h :=
    (parseWorkflowFile_error_iff (fun l => l)
        (Except.ok ⟨["## hi"], Except.ok [("name", Yaml.str "x")]⟩)).2
      ["## hi"] [("name", Yaml.str "x")] rfl rfl
  rw [h]
  rfl

/-- Claim C3: when the first line does not begin with the marker after
trimming, the description is empty no matter what follows; when it does,
the collected block is exactly the longest marker prefix of the lines, so
lines after the first gap are never re-included. -/
theorem description_block (l : String) (ls : List String) :
    (hasPrefixGo (trimSpaceGo l) "##" = false →
      extractDescription (l :: ls) = "") ∧
    (hasPrefixGo (trimSpaceGo l) "##" = true →
      collectDescLines (l :: ls) =
        ((l :: ls).takeWhile (fun x => hasPrefixGo (trimSpaceGo x) "##")).map
          (fun x => descLine (trimSpaceGo x))) := by
  constructor
  · intro h
    simp [extractDescription, collectDescLines, h]
  · intro _
    exact collectDescLines_eq_takeWhile (l :: ls)

/-- Witness for claim C3: a file whose first line is not a comment yields
an empty description despite a later `##` line, and a comment block stops
at the first gap. -/
theorem description_block_witness :
    extractDescription ["name: x", "## late"] = "" ∧
    collectDescLines ["## A", "body", "## late"] = ["A"] := by
  constructor
  · exact (description_block "name: x" ["## late"]).1 (by decide)
  · exact
      ((description_block "## A" ["body", "## late"]).2 (by decide)).trans
        (by decide)

/-- Claim C4: the three-shape dispatch on the `on` value: a plain string
yields that single trigger; a sequence yields its string elements in
sequence order with non-string elements silently skipped; a mapping yields
its key names (as a permutation, in the Go map iteration order). -/
theorem onTriggers_dispatch
    (choose : List (String × Yaml) → List (String × Yaml))
    (h : GoIter choose) :
    (∀ s, onTriggers choose (Yaml.str s) = [s]) ∧
    (onTriggers choose (Yaml.seq []) = []) ∧
    (∀ s rest, onTriggers choose (Yaml.seq (Yaml.str s :: rest)) =
      s :: onTriggers choose (Yaml.seq rest)) ∧
    (∀ x rest, yamlString x = none →
      onTriggers choose (Yaml.seq (x :: rest)) =
        onTriggers choose (Yaml.seq rest)) ∧
    (∀ entries,
      List.Perm (onTriggers choose (Yaml.map entries))
        (entries.map Prod.fst)) := by
  refine ⟨fun s => rfl, rfl, fun s rest => rfl, ?_, ?_⟩
  · intro x rest hx
    simp [onTriggers, List.filterMap_cons, hx]
  · intro entries
    exact List.Perm.map Prod.fst (h entries)

/-- Witness for claim C4: a non-string sequence element contributes
nothing. -/
theorem onTriggers_dispatch_witness :
    onTriggers (fun l => l) (Yaml.seq [Yaml.other, Yaml.str "push"]) =
      onTriggers (fun l => l) (Yaml.seq [Yaml.str "push"]) :=
  (onTriggers_dispatch (fun l => l) (fun l => List.Perm.refl l)).2.2.2.1
    Yaml.other [Yaml.str "push"] rfl

/-- Filtering the listing to the candidate entries first does not change
the collected records: non-candidate entries contribute nothing. -/
theorem collectWorkflows_filter
    (choose : List (String × Yaml) → List (String × Yaml))
    (entries : List DirEntry) :
    collectWorkflows choose entries =
      collectWorkflows choose (entries.filter isCandidate) := by
  induction entries with
  | nil => rfl
  | cons e es ih =>
    cases h : isCandidate e with
    | true =>
      rw [List.filter_cons_of_pos h, collectWorkflows_cons,
        collectWorkflows_cons]
      simp only [h, if_true]
      cases parseWorkflowFile choose e.file with
      | error u => cases u; exact ih
      | ok w => rw [ih]
    | false =>
      rw [List.filter_cons_of_neg (by simp [h]), collectWorkflows_cons]
      simp only [h, Bool.false_eq_true, if_false]
      exact ih

/-- The filenames of the collected records form a sublist (same relative
order) of the names of the candidate entries. -/
theorem collectWorkflows_names_sublist
    (choose : List (String × Yaml) → List (String × Yaml))
    (entries : List DirEntry) :
    List.Sublist ((collectWorkflows choose entries).map WorkflowInfo.Filename)
      ((entries.filter isCandidate).map DirEntry.name) := by
  induction entries with
  | nil => exact List.nil_sublist _
  | cons e es ih =>
    cases h : isCandidate e with
    | true =>
      rw [List.filter_cons_of_pos h, collectWorkflows_cons]
      simp only [h, if_true, List.map_cons]
      cases parseWorkflowFile choose e.file with
      | error u => cases u; exact ih.cons e.name
      | ok w => exact ih.cons₂ e.name
    | false =>
      rw [List.filter_cons_of_neg (by simp [h]), collectWorkflows_cons]
      simp only [h, Bool.false_eq_true, if_false]
      exact ih

/-- Claim C5: one file whose read or parse fails is omitted from the
collected records while every sibling on either side is still rendered;
the run is never aborted by the bad file. -/
theorem Generate_skips_bad_file
    (choose : List (String × Yaml) → List (String × Yaml))
    (P : PathOps) (dir out : String)
    (pre post : List DirEntry) (bad : DirEntry)
    (hbad : parseWorkflowFile choose bad.file = Except.error ()) :
    Generate choose P (pre ++ bad :: post) dir out =
      generateMarkdownTable P
        (collectWorkflows choose pre ++ collectWorkflows choose post)
        dir out := by
  unfold Generate
  rw [collectWorkflows_append, collectWorkflows_cons, hbad]
  cases h : isCandidate bad with
  | true => simp [h]
  | false => simp [h]

/-- Witness for claim C5: a directory with one good file and one
unreadable file renders exactly the good file. -/
theorem Generate_skips_bad_file_witness :
    Generate (fun l => l)
        ⟨fun a b => a ++ "/" ++ b, fun s => s, fun _ _ => none, fun s => s⟩
        [⟨"good.yml", false, Except.ok ⟨[], Except.ok []⟩⟩,
          ⟨"bad.yml", false, Except.error ()⟩] "wf" "out.md" =
      generateMarkdownTable
        ⟨fun a b => a ++ "/" ++ b, fun s => s, fun _ _ => none, fun s => s⟩
        (collectWorkflows (fun l => l)
            [⟨"good.yml", false, Except.ok ⟨[], Except.ok []⟩⟩] ++
          collectWorkflows (fun l => l) []) "wf" "out.md" :=
  Generate_skips_bad_file (fun l => l)
    ⟨fun a b => a ++ "/" ++ b, fun s => s, fun _ _ => none, fun s => s⟩
    "wf" "out.md" [⟨"good.yml", false, Except.ok ⟨[], Except.ok []⟩⟩] []
    ⟨"bad.yml", false, Except.error ()⟩ rfl

/-- Claim C6: the renderer is a total function of the record list, and on
the empty list it produces exactly the title line, a blank line, the
header row and the separator row, with no data rows. -/
theorem generateMarkdownTable_total (P : PathOps) (dir out : String) :
    generateMarkdownTable P [] dir out =
      "# GitHub Workflows Summary\n\n| Filename | Description | Triggers |\n| --- | --- | --- |\n" ∧
    ∀ workflows, generateMarkdownTable P workflows dir out =
      tablePrologue ++ String.join (workflows.map (rowOf P dir out)) := by
  constructor
  · show tablePrologue ++ String.join [] = _
    rw [show String.join [] = "" from rfl, String.append_empty]
    rfl
  · intro workflows
    rfl

/-- Claim C7: the renderer emits exactly one data row per record, the row
at each index renders the record at the same index (no reordering), and
the document is the prologue followed by those rows in input order. -/
theorem generateMarkdownTable_rows (P : PathOps) (dir out : String)
    (workflows : List WorkflowInfo) :
    (workflows.map (rowOf P dir out)).length = workflows.length ∧
    (∀ i : Nat, (workflows.map (rowOf P dir out))[i]? =
      Option.map (rowOf P dir out) workflows[i]?) ∧
    generateMarkdownTable P workflows dir out =
      tablePrologue ++ String.join (workflows.map (rowOf P dir out)) :=
  ⟨List.length_map workflows (rowOf P dir out),
    fun i => List.getElem?_map (rowOf P dir out) workflows i, rfl⟩

/-- Claim C8: the description is always the collected lines joined with
the fixed `<br>` marker (the empty collected list giving the empty string,
not an error), each collected line is the trimmed line with the marker and
the following white space stripped, and two consecutive leading comment
lines `## A`, `## B` give `A<br>B`. -/
theorem description_join (lines : List String) :
    extractDescription lines =
      String.intercalate "<br>" (collectDescLines lines) ∧
    (collectDescLines lines = [] → extractDescription lines = "") ∧
    (∀ l ls, hasPrefixGo (trimSpaceGo l) "##" = true →
      collectDescLines (l :: ls) =
        descLine (trimSpaceGo l) :: collectDescLines ls) ∧
    extractDescription ["## A", "## B"] = "A<br>B" := by
  refine ⟨?_, ?_, ?_, by decide⟩
  · cases h : collectDescLines lines with
    | nil =>
      simp only [extractDescription, h, List.length_nil, gt_iff_lt,
        Nat.lt_irrefl, if_false]
      rfl
    | cons a as => simp [extractDescription, h]
  · intro h
    simp [extractDescription, h]
  · intro l ls h
    simp [collectDescLines, h]

/-- Witness for claim C8: a non-comment first line gives the empty string,
and a leading comment line is collected in stripped form. -/
theorem description_join_witness :
    extractDescription ["body"] = "" ∧
    collectDescLines ["## A", "## B"] = "A" :: collectDescLines ["## B"] := by
  constructor
  · exact (description_join ["body"]).2.1 rfl
  · have h := (description_join []).2.2.1 "## A" ["## B"] (by decide)
    rw [h]
    rfl

/-- Claim C9: an entry can contribute a row exactly when it is not a
subdirectory and its extension is literally `.yml` or `.yaml`; every
other entry contributes nothing (filtering them away first changes
nothing), the surviving filenames keep the directory-listing order, and a
candidate whose parse succeeds does appear, between the rows of its
neighbours. -/
theorem candidate_filter
    (choose : List (String × Yaml) → List (String × Yaml))
    (entries : List DirEntry) :
    collectWorkflows choose entries =
      collectWorkflows choose (entries.filter isCandidate) ∧
    List.Sublist ((collectWorkflows choose entries).map WorkflowInfo.Filename)
      ((entries.filter isCandidate).map DirEntry.name) ∧
    (∀ e : DirEntry, isCandidate e = true ↔
      e.isDir = false ∧
        (filepathExt e.name = ".yml" ∨ filepathExt e.name = ".yaml")) ∧
    (∀ pre post (e : DirEntry) w, isCandidate e = true →
      parseWorkflowFile choose e.file = Except.ok w →
      collectWorkflows choose (pre ++ e :: post) =
        collectWorkflows choose pre ++
          { w with Filename := e.name } :: collectWorkflows choose post) := by
  refine ⟨collectWorkflows_filter choose entries,
    collectWorkflows_names_sublist choose entries, ?_, ?_⟩
  · intro e
    simp [isCandidate]
  · intro pre post e w hcand hok
    rw [collectWorkflows_append, collectWorkflows_cons, hok]
    simp [hcand]

/-- Witness for claim C9: a subdirectory named like a workflow file is
skipped while a parsed candidate between neighbours appears with its
entry name. -/
theorem candidate_filter_witness :
    collectWorkflows (fun l => l)
        ([⟨"sub.yml", true, Except.error ()⟩] ++
          ⟨"a.yml", false, Except.ok ⟨[], Except.ok []⟩⟩ :: []) =
      collectWorkflows (fun l => l) [⟨"sub.yml", true, Except.error ()⟩] ++
        ⟨"a.yml", "", []⟩ :: collectWorkflows (fun l => l) [] :=
  (candidate_filter (fun l => l) []).2.2.2
    [⟨"sub.yml", true, Except.error ()⟩] []
    ⟨"a.yml", false, Except.ok ⟨[], Except.ok []⟩⟩ ⟨"", "", []⟩
    (by decide) rfl

/-- Claim C10: a readable file whose content unmarshals to the empty
document (the nil map) parses successfully, keeping the description
collected from the leading comment block and yielding no triggers; in
particular a file consisting only of `##` comment lines parses to its
comment text with an empty trigger list. -/
theorem parseWorkflowFile_empty_document
    (choose : List (String × Yaml) → List (String × Yaml))
    (lines : List String) :
    parseWorkflowFile choose (Except.ok ⟨lines, Except.ok []⟩) =
      Except.ok ⟨"", extractDescription lines, []⟩ ∧
    parseWorkflowFile choose
        (Except.ok ⟨["## only comments"], Except.ok []⟩) =
      Except.ok ⟨"", "only comments", []⟩ :=
  ⟨rfl, rfl⟩

end Ghadoc
